import Mathlib

/-!
Verification of the reason-code speech wire-protocol core: the simple
(recognition) frame codec from commands/stt.rs, the eventful session frame
codec and text chunker from commands/tts.rs, and the synthesis session driver
tts_speak_stream. Byte buffers are modelled as lists of naturals (each element
a byte value below 256); every indexed read and slice of the Rust code is
modelled in an Option layer where a result of none marks an access that would
panic in Rust, so totality of the decoders is a provable statement.
-/

namespace ReasonCode

/-- Big-endian 32-bit value from four byte values (u32::from_be_bytes). -/
def be32 (b0 b1 b2 b3 : Nat) : Nat :=
  ((b0 * 256 + b1) * 256 + b2) * 256 + b3

/-- Big-endian byte encoding of a 32-bit value (u32::to_be_bytes). -/
def be32_bytes (n : Nat) : List Nat :=
  [n / 2 ^ 24 % 256, n / 2 ^ 16 % 256, n / 2 ^ 8 % 256, n % 256]

/-- Signed reinterpretation of a 32-bit big-endian value (i32::from_be_bytes). -/
def i32OfBe (n : Nat) : Int :=
  if n % 2 ^ 32 < 2 ^ 31 then ((n % 2 ^ 32 : Nat) : Int)
  else ((n % 2 ^ 32 : Nat) : Int) - 2 ^ 32

/-- Indexed byte read data[i]; none models the Rust panic on an index out of bounds. -/
def readU8 (d : List Nat) (i : Nat) : Option Nat := d.get? i

/-- Four consecutive indexed reads combined big-endian, as in
u32::from_be_bytes([data[i], data[i+1], data[i+2], data[i+3]]). -/
def readBe32 (d : List Nat) (i : Nat) : Option Nat :=
  match d.get? i, d.get? (i + 1), d.get? (i + 2), d.get? (i + 3) with
  | some a, some b, some c, some e => some (be32 a b c e)
  | _, _, _, _ => none

/-- Slice data[s..]; none models the Rust panic when s exceeds the length. -/
def sliceFrom (d : List Nat) (s : Nat) : Option (List Nat) :=
  if s ≤ d.length then some (d.drop s) else none

/-- Slice data[s..e]; none models the Rust panic when the range is invalid. -/
def sliceRange (d : List Nat) (s e : Nat) : Option (List Nat) :=
  if s ≤ e ∧ e ≤ d.length then some ((d.drop s).take (e - s)) else none

/-- Predicate that a modelled buffer consists of byte values. -/
def isBytes (d : List Nat) : Prop := ∀ b ∈ d, b < 256

instance : DecidablePred isBytes := fun d =>
  inferInstanceAs (Decidable (∀ b ∈ d, b < 256))

/-! ### Simple (recognition) protocol codec, commands/stt.rs -/

/-- Error outcomes of parse_server_payload; each constructor stands for the
string the Rust code formats at the corresponding return site, with the
serverError constructor carrying the payload bytes whose lossy UTF-8 text is
interpolated into the message. -/
inductive SttErr where
  | unsupportedCompression
  | unsupportedSerialization
  | serverError (payload : List Nat)
deriving DecidableEq, Repr

/-- Embedding of build_full_client_request from commands/stt.rs, taking the
already serialized JSON payload bytes. -/
def build_full_client_request (payload : List Nat) : List Nat :=
  0x11 :: 0x10 :: 0x10 :: 0x00 ::
    (be32_bytes (payload.length % 2 ^ 32) ++ payload)

/-- Embedding of build_audio_only_request from commands/stt.rs. -/
def build_audio_only_request (audio_data : List Nat) (is_last : Bool) : List Nat :=
  let flags := if is_last then 0x02 else 0x00
  0x11 :: Nat.lor 0x20 flags :: 0x00 :: 0x00 ::
    (be32_bytes (audio_data.length % 2 ^ 32) ++ audio_data)

/-- Embedding of parse_server_payload from commands/stt.rs. The successful
payload is kept as raw bytes; the Rust code converts it with
String::from_utf8_lossy before returning. A result of none marks an indexed
access that would panic in Rust (proved unreachable below). -/
def parse_server_payload (data : List Nat) :
    Option (Except SttErr (Option (List Nat))) :=
  if data.length < 12 then some (Except.ok none) else
  match readU8 data 0 with
  | none => none
  | some b0 =>
    let header_size := b0 % 16 * 4
    if data.length < header_size + 8 then some (Except.ok none) else
    match readU8 data 1, readU8 data 2 with
    | some b1, some b2 =>
      let message_type := b1 / 16
      let serialization := b2 / 16
      let compression := b2 % 16
      if compression ≠ 0 then some (Except.error SttErr.unsupportedCompression) else
      if serialization ≠ 0x01 ∧ serialization ≠ 0x00 then
        some (Except.error SttErr.unsupportedSerialization) else
      let payload_size_offset := header_size + 4
      if data.length < payload_size_offset + 4 then some (Except.ok none) else
      match readBe32 data payload_size_offset with
      | none => none
      | some payload_size =>
        let payload_offset := header_size + 8
        if data.length < payload_offset + payload_size then some (Except.ok none) else
        match sliceRange data payload_offset (payload_offset + payload_size) with
        | none => none
        | some payload =>
          if message_type = 0b1111 then some (Except.error (SttErr.serverError payload))
          else some (Except.ok (some payload))
    | _, _ => none

/-! ### Session (synthesis) protocol codec, commands/tts.rs -/

def MSG_TYPE_FULL_CLIENT : Nat := 0x1
def MSG_TYPE_AUDIO_ONLY_RESPONSE : Nat := 0xb
def MSG_TYPE_ERROR : Nat := 0xf
def FLAG_WITH_EVENT : Nat := 0x4
def SERIALIZATION_JSON : Nat := 0x1

def EVENT_START_CONNECTION : Int := 1
def EVENT_FINISH_CONNECTION : Int := 2
def EVENT_CONNECTION_STARTED : Int := 50
def EVENT_CONNECTION_FINISHED : Int := 52
def EVENT_START_SESSION : Int := 100
def EVENT_FINISH_SESSION : Int := 102
def EVENT_SESSION_STARTED : Int := 150
def EVENT_SESSION_FINISHED : Int := 152
def EVENT_TASK_REQUEST : Int := 200
def EVENT_TTS_RESPONSE : Int := 352

/-- Decoded session-protocol frame, mirroring struct ParsedFrame of
commands/tts.rs (payload kept as raw bytes). -/
structure ParsedFrame where
  message_type : Nat
  flags : Nat
  serialization : Nat
  event : Option Int
  payload : List Nat
deriving DecidableEq, Repr

/-- Error outcomes of parse_frame in commands/tts.rs; each constructor stands
for the string literal returned at the corresponding site. -/
inductive FrameErr where
  | frameTooShort
  | invalidHeaderSize
  | missingEventField
  | missingErrorCode
  | invalidIdLength
deriving DecidableEq, Repr

/-- Optional session-id field step of parse_frame (the block reading id_len and
skipping the id bytes); returns the advanced offset. -/
def parse_frame_id_field (data : List Nat) (offset : Nat) :
    Option (Except FrameErr Nat) :=
  if offset + 4 ≤ data.length then
    match readBe32 data offset with
    | none => none
    | some id_len =>
      if id_len > 0 then
        if offset + 4 + id_len > data.length then
          some (Except.error FrameErr.invalidIdLength)
        else some (Except.ok (offset + 4 + id_len))
      else some (Except.ok (offset + 4))
  else some (Except.ok offset)

/-- Trailing payload step of parse_frame: a declared length fitting the buffer
takes exactly that slice, an overlong declared length is capped at the end of
the buffer, and anything else leaves the payload empty. -/
def parse_frame_payload_field (data : List Nat) (offset : Nat) :
    Option (List Nat) :=
  if offset + 4 ≤ data.length then
    match readBe32 data offset with
    | none => none
    | some payload_len =>
      if offset + 4 + payload_len ≤ data.length then
        sliceRange data (offset + 4) (offset + 4 + payload_len)
      else if offset + 4 < data.length then
        sliceFrom data (offset + 4)
      else some []
  else some []

/-- Continuation of parse_frame after the optional event field has been read,
with offset pointing just past it: the error message type returns immediately
with everything after the 4-byte error code as payload, otherwise the optional
id field and the length-prefixed payload follow. -/
def parse_frame_after_event (data : List Nat)
    (message_type flags serialization : Nat) (event : Option Int)
    (offset : Nat) : Option (Except FrameErr ParsedFrame) :=
  if message_type = MSG_TYPE_ERROR then
    if offset + 4 > data.length then some (Except.error FrameErr.missingErrorCode)
    else
      match sliceFrom data (offset + 4) with
      | none => none
      | some payload =>
        some (Except.ok ⟨message_type, flags, serialization, event, payload⟩)
  else
    match parse_frame_id_field data offset with
    | none => none
    | some r =>
      match r with
      | Except.error e => some (Except.error e)
      | Except.ok offset2 =>
        match parse_frame_payload_field data offset2 with
        | none => none
        | some payload =>
          some (Except.ok ⟨message_type, flags, serialization, event, payload⟩)

/-- Embedding of parse_frame from commands/tts.rs. A result of none marks an
indexed access or slice that would panic in Rust (proved unreachable below). -/
def parse_frame (data : List Nat) : Option (Except FrameErr ParsedFrame) :=
  if data.length < 4 then some (Except.error FrameErr.frameTooShort) else
  match readU8 data 0, readU8 data 1, readU8 data 2 with
  | some b0, some b1, some b2 =>
    let header_size := b0 % 16 * 4
    if header_size > data.length then some (Except.error FrameErr.invalidHeaderSize) else
    let message_type := b1 / 16
    let flags := b1 % 16
    let serialization := b2 / 16
    if Nat.land flags FLAG_WITH_EVENT ≠ 0 then
      if header_size + 4 > data.length then
        some (Except.error FrameErr.missingEventField)
      else
        match readBe32 data header_size with
        | none => none
        | some ev =>
          parse_frame_after_event data message_type flags serialization
            (some (i32OfBe ev)) (header_size + 4)
    else
      parse_frame_after_event data message_type flags serialization none header_size
  | _, _, _ => none

/-- Embedding of build_full_client_frame from commands/tts.rs, with the
session id and payload given as byte lists. -/
def build_full_client_frame (event : Int) (session_id : Option (List Nat))
    (payload : List Nat) : List Nat :=
  let header := [0x11, 0x14, 0x10, 0x00] ++ be32_bytes ((event % 2 ^ 32).toNat)
  let withId :=
    match session_id with
    | some id_bytes => header ++ be32_bytes (id_bytes.length % 2 ^ 32) ++ id_bytes
    | none => header
  withId ++ be32_bytes (payload.length % 2 ^ 32) ++ payload

/-! ### Text chunker, commands/tts.rs -/

def TTS_CHUNK_MAX : Nat := 60
def TTS_CHUNK_MIN : Nat := 12

/-- Embedding of is_boundary_char from commands/tts.rs. -/
def is_boundary_char (ch : Char) : Bool :=
  match ch with
  | '。' | '！' | '？' | '；' | '，' | '、' | '.' | '!' | '?' | ';' | ',' | '\n' => true
  | _ => false

/-- The Unicode White_Space property used by char::is_whitespace in Rust. -/
def isRustWhitespace (c : Char) : Bool :=
  match c with
  | '\t' | '\n' | '\x0b' | '\x0c' | '\r' | ' '
  | '\u0085' | ' ' | ' '
  | ' ' | ' ' | ' ' | ' ' | ' ' | ' '
  | ' ' | ' ' | ' ' | ' ' | ' '
  | ' ' | ' ' | ' ' | ' ' | '　' => true
  | _ => false

/-- Whitespace removed from the back of a character list. -/
def trimEnd (s : List Char) : List Char :=
  (s.reverse.dropWhile isRustWhitespace).reverse

/-- Embedding of str::trim: whitespace removed from both ends. -/
def trimChars (s : List Char) : List Char :=
  (trimEnd s).dropWhile isRustWhitespace

/-- One iteration of the character scan of split_tts_text, over the state
(chunks so far, current accumulator, accumulated character count). -/
def splitStep (maxLen minLen : Nat)
    (st : List (List Char) × List Char × Nat) (ch : Char) :
    List (List Char) × List Char × Nat :=
  let chunks := st.1
  let current := st.2.1 ++ [ch]
  let current_len := st.2.2 + 1
  let should_split := current_len ≥ maxLen ∨
    (is_boundary_char ch ∧ current_len ≥ minLen)
  if should_split then
    let chunk := trimChars current
    (if chunk ≠ [] then chunks ++ [chunk] else chunks, [], 0)
  else
    (chunks, current, current_len)

/-- Embedding of split_tts_text from commands/tts.rs with the two length
constants as parameters; the source instantiates them with TTS_CHUNK_MAX and
TTS_CHUNK_MIN. -/
def split_tts_text_with (maxLen minLen : Nat) (text : List Char) :
    List (List Char) :=
  let trimmed := trimChars text
  if trimmed = [] then [] else
  let st := trimmed.foldl (splitStep maxLen minLen) ([], [], 0)
  let rest := trimChars st.2.1
  let chunks := if rest ≠ [] then st.1 ++ [rest] else st.1
  if chunks = [] then [trimmed] else chunks

/-- split_tts_text as the source calls it, with max 60 and min 12. -/
def split_tts_text (text : List Char) : List (List Char) :=
  split_tts_text_with TTS_CHUNK_MAX TTS_CHUNK_MIN text

/-! ### Synthesis session driver, tts_speak_stream in commands/tts.rs

The post-connection control flow of tts_speak_stream is modelled as a function
of the list of inbound websocket messages; outbound writes are modelled as
reliable, and each frame sent through build_full_client_frame is recorded in a
trace by its event code. UI window emissions, logging and the inter-chunk
pacing delay have no protocol effect and are not recorded. -/

/-- Inbound websocket message as matched by the source loops; text payload
bytes are irrelevant to control flow and carried verbatim. -/
inductive Msg where
  | binary (data : List Nat)
  | text (t : List Nat)
  | close
  | other
  | recvErr
deriving DecidableEq, Repr

/-- Error outcomes of the synthesis session after the connection is open; each
constructor stands for the formatted string returned at the corresponding
source site. -/
inductive TtsErr where
  | recvFailed
  | decodeError (e : FrameErr)
  | serviceError (payload : List Nat)
  | textMessage (t : List Nat)
  | connectionClosed
  | connectionEnded
  | emptyText
deriving DecidableEq, Repr

/-- Total wrapper for parse_frame; by theorem parse_frame_total the default
branch is unreachable, so this equals the unique value inside the option. -/
def parse_frame_run (data : List Nat) : Except FrameErr ParsedFrame :=
  (parse_frame data).getD (Except.error FrameErr.frameTooShort)

/-- Embedding of wait_for_event from commands/tts.rs: drains inbound messages
until the target event arrives, failing on transport errors, decode errors,
error frames, text messages, close frames, or end of stream. Returns the
outcome together with the unconsumed remainder of the inbound stream. -/
def wait_for_event : List Msg → Int → Except TtsErr Unit × List Msg
  | [], _ => (Except.error TtsErr.connectionEnded, [])
  | m :: rest, target =>
    match m with
    | Msg.recvErr => (Except.error TtsErr.recvFailed, rest)
    | Msg.text t => (Except.error (TtsErr.textMessage t), rest)
    | Msg.close => (Except.error TtsErr.connectionClosed, rest)
    | Msg.other => wait_for_event rest target
    | Msg.binary data =>
      match parse_frame_run data with
      | Except.error e => (Except.error (TtsErr.decodeError e), rest)
      | Except.ok frame =>
        if frame.message_type = MSG_TYPE_ERROR then
          (Except.error (TtsErr.serviceError frame.payload), rest)
        else
          match frame.event with
          | some ev =>
            if ev = target then (Except.ok (), rest) else wait_for_event rest target
          | none => wait_for_event rest target

/-- The audio-collection loop of tts_speak_stream (the while let over ws_read
after the finish-session frame is sent), accumulating total_bytes. A close
frame or the end of the stream leaves the loop normally; event 152 breaks out;
errors abort. Returns the outcome with the unconsumed remainder. -/
def tts_audio_loop : List Msg → Nat → Except TtsErr Nat × List Msg
  | [], total => (Except.ok total, [])
  | m :: rest, total =>
    match m with
    | Msg.recvErr => (Except.error TtsErr.recvFailed, rest)
    | Msg.text t => (Except.error (TtsErr.textMessage t), rest)
    | Msg.close => (Except.ok total, rest)
    | Msg.other => tts_audio_loop rest total
    | Msg.binary data =>
      match parse_frame_run data with
      | Except.error e => (Except.error (TtsErr.decodeError e), rest)
      | Except.ok frame =>
        if frame.message_type = MSG_TYPE_ERROR then
          (Except.error (TtsErr.serviceError frame.payload), rest)
        else if frame.message_type = MSG_TYPE_AUDIO_ONLY_RESPONSE ∧ frame.payload ≠ [] then
          tts_audio_loop rest (total + frame.payload.length)
        else
          match frame.event with
          | some ev =>
            if ev = EVENT_TTS_RESPONSE ∧ frame.payload ≠ [] then
              tts_audio_loop rest (total + frame.payload.length)
            else if ev = EVENT_SESSION_FINISHED then (Except.ok total, rest)
            else tts_audio_loop rest total
          | none => tts_audio_loop rest total

instance {ε α : Type} [DecidableEq ε] [DecidableEq α] : DecidableEq (Except ε α) := fun a b =>
  match a, b with
  | Except.error x, Except.error y =>
    if h : x = y then isTrue (congrArg Except.error h)
    else isFalse (fun hc => h (Except.error.inj hc))
  | Except.ok x, Except.ok y =>
    if h : x = y then isTrue (congrArg Except.ok h)
    else isFalse (fun hc => h (Except.ok.inj hc))
  | Except.error _, Except.ok _ => isFalse (fun hc => Except.noConfusion hc)
  | Except.ok _, Except.error _ => isFalse (fun hc => Except.noConfusion hc)

/-- Outcome of a modelled synthesis session: the returned result (Ok carries
the accumulated total byte count reported in the finished emission) and the
trace of sent frames, each recorded by the event code passed to
build_full_client_frame. -/
structure TtsRun where
  result : Except TtsErr Nat
  sent : List Int
deriving DecidableEq, Repr

/-- Embedding of the post-connection control flow of tts_speak_stream: send
start-connection, await event 50; send start-session, await event 150; send
one task frame per text chunk and the finish-session frame; run the audio
loop; and on its normal completion only, send finish-connection and await
event 52 with the outcome of that await discarded. Every error path returns
the error with the frames sent so far. -/
def tts_speak_stream_after_connect (text : List Char) (inbound : List Msg) :
    TtsRun :=
  let sent0 := [EVENT_START_CONNECTION]
  let w1 := wait_for_event inbound EVENT_CONNECTION_STARTED
  match w1.1 with
  | Except.error e => ⟨Except.error e, sent0⟩
  | Except.ok _ =>
    let sent1 := sent0 ++ [EVENT_START_SESSION]
    let w2 := wait_for_event w1.2 EVENT_SESSION_STARTED
    match w2.1 with
    | Except.error e => ⟨Except.error e, sent1⟩
    | Except.ok _ =>
      let chunks := split_tts_text text
      if chunks = [] then ⟨Except.error TtsErr.emptyText, sent1⟩
      else
        let sent2 := sent1 ++ chunks.map (fun _ => EVENT_TASK_REQUEST)
          ++ [EVENT_FINISH_SESSION]
        let lp := tts_audio_loop w2.2 0
        match lp.1 with
        | Except.error e => ⟨Except.error e, sent2⟩
        | Except.ok total =>
          let sent3 := sent2 ++ [EVENT_FINISH_CONNECTION]
          let _w3 := wait_for_event lp.2 EVENT_CONNECTION_FINISHED
          ⟨Except.ok total, sent3⟩

/-! ### Helper lemmas -/

lemma be32_be32_bytes (n : Nat) (h : n < 2 ^ 32) :
    be32 (n / 2 ^ 24 % 256) (n / 2 ^ 16 % 256) (n / 2 ^ 8 % 256) (n % 256) = n := by
  unfold be32
  omega

lemma get?_append_be32 (pre rest : List Nat) (n i : Nat) (hi : i < 4) :
    (pre ++ (be32_bytes n ++ rest)).get? (pre.length + i) = (be32_bytes n).get? i := by
  rw [List.get?_append_right (by omega), Nat.add_sub_cancel_left]
  exact List.get?_append (by simp [be32_bytes]; omega)

lemma readBe32_append (pre rest : List Nat) (n : Nat) (h : n < 2 ^ 32) :
    readBe32 (pre ++ (be32_bytes n ++ rest)) pre.length = some n := by
  have h0 := get?_append_be32 pre rest n 0 (by omega)
  have h1 := get?_append_be32 pre rest n 1 (by omega)
  have h2 := get?_append_be32 pre rest n 2 (by omega)
  have h3 := get?_append_be32 pre rest n 3 (by omega)
  rw [Nat.add_zero] at h0
  unfold readBe32
  rw [h0, h1, h2, h3]
  simp only [be32_bytes, List.get?]
  rw [be32_be32_bytes n h]

lemma drop_length_append (pre rest : List Nat) (k : Nat) (hk : pre.length = k) :
    (pre ++ rest).drop k = rest := by
  rw [← hk]
  exact List.drop_left pre rest

lemma parse_frame_event_only (d : List Nat) (b0 b1 b2 ev : Nat)
    (h4 : 4 ≤ d.length)
    (h0 : readU8 d 0 = some b0) (h1 : readU8 d 1 = some b1) (h2 : readU8 d 2 = some b2)
    (hb1 : b1 / 16 ≠ 15)
    (hflag : Nat.land (b1 % 16) 4 ≠ 0)
    (hev : readBe32 d (b0 % 16 * 4) = some ev)
    (hend : d.length = b0 % 16 * 4 + 4) :
    parse_frame d = some (Except.ok
      ⟨b1 / 16, b1 % 16, b2 / 16, some (i32OfBe ev), []⟩) := by
  unfold parse_frame
  rw [if_neg (by omega), h0, h1, h2]
  simp only []
  rw [if_neg (by omega)]
  unfold FLAG_WITH_EVENT
  rw [if_pos hflag, if_neg (by omega), hev]
  simp only []
  unfold parse_frame_after_event
  rw [if_neg (by simpa [MSG_TYPE_ERROR] using hb1)]
  unfold parse_frame_id_field
  rw [if_neg (by omega)]
  simp only []
  unfold parse_frame_payload_field
  rw [if_neg (by omega)]

/-! ### Claim C1 -/

/-- C1 counterexample: the four-byte scenario-B buffer (header only, event
flag set) makes parse_frame return the missing-event-field decode error, not
a distinct incomplete outcome; the claimed incomplete outcome does not exist
in the session decoder. -/
theorem C1_counterexample :
    parse_frame [0x11, 0x14, 0x10, 0x00] =
      some (Except.error FrameErr.missingEventField) := by decide

/-- C1 amended: parse_frame treats a buffer shorter than its declared header
length, and a buffer whose event flag is set but which ends before the event
field, as decode errors (invalidHeaderSize and missingEventField); the
incomplete outcome of the simple decoder has no counterpart here. -/
theorem C1_short_buffers_are_errors :
    (∀ (d : List Nat) (b0 : Nat), 4 ≤ d.length → readU8 d 0 = some b0 →
      b0 % 16 * 4 > d.length →
      parse_frame d = some (Except.error FrameErr.invalidHeaderSize)) ∧
    parse_frame [0x11, 0x14, 0x10, 0x00] =
      some (Except.error FrameErr.missingEventField) := by
  constructor
  · intro d b0 h4 h0 hover
    unfold parse_frame
    rw [if_neg (by omega), h0]
    have h1 : ∃ v1, readU8 d 1 = some v1 := by
      unfold readU8
      cases hc : d.get? 1 with
      | none => rw [List.get?_eq_none] at hc; omega
      | some v => exact ⟨v, rfl⟩
    have h2 : ∃ v2, readU8 d 2 = some v2 := by
      unfold readU8
      cases hc : d.get? 2 with
      | none => rw [List.get?_eq_none] at hc; omega
      | some v => exact ⟨v, rfl⟩
    obtain ⟨v1, h1⟩ := h1
    obtain ⟨v2, h2⟩ := h2
    rw [h1, h2]
    simp only [if_pos hover]
  · decide

/-- C1 witness: the amended theorem applied to a four-byte buffer declaring a
two-word header. -/
theorem C1_witness :
    parse_frame [0x12, 0x00, 0x00, 0x00] =
      some (Except.error FrameErr.invalidHeaderSize) :=
  C1_short_buffers_are_errors.1 [0x12, 0x00, 0x00, 0x00] 0x12
    (by decide) (by decide) (by decide)

/-! ### Characterization lemmas for the decoders -/

lemma parse_frame_error_eventful (d : List Nat) (b0 b1 b2 ev : Nat)
    (h4 : 4 ≤ d.length)
    (h0 : readU8 d 0 = some b0) (h1 : readU8 d 1 = some b1) (h2 : readU8 d 2 = some b2)
    (hb1 : b1 / 16 = 15)
    (hflag : Nat.land (b1 % 16) 4 ≠ 0)
    (hev : readBe32 d (b0 % 16 * 4) = some ev)
    (hcode : b0 % 16 * 4 + 4 + 4 ≤ d.length) :
    parse_frame d = some (Except.ok
      ⟨15, b1 % 16, b2 / 16, some (i32OfBe ev), d.drop (b0 % 16 * 4 + 8)⟩) := by
  unfold parse_frame
  rw [if_neg (by omega), h0, h1, h2]
  simp only []
  rw [if_neg (by omega)]
  unfold FLAG_WITH_EVENT
  rw [if_pos hflag, if_neg (by omega), hev]
  rw [hb1]
  simp only []
  unfold parse_frame_after_event
  rw [if_pos (by decide : (15 : Nat) = MSG_TYPE_ERROR), if_neg (by omega)]
  unfold sliceFrom
  rw [if_pos (by omega)]

lemma parse_frame_error_eventless (d : List Nat) (b0 b1 b2 : Nat)
    (h4 : 4 ≤ d.length)
    (h0 : readU8 d 0 = some b0) (h1 : readU8 d 1 = some b1) (h2 : readU8 d 2 = some b2)
    (hb1 : b1 / 16 = 15)
    (hflag : Nat.land (b1 % 16) 4 = 0)
    (hcode : b0 % 16 * 4 + 4 ≤ d.length) :
    parse_frame d = some (Except.ok
      ⟨15, b1 % 16, b2 / 16, none, d.drop (b0 % 16 * 4 + 4)⟩) := by
  unfold parse_frame
  rw [if_neg (by omega), h0, h1, h2]
  simp only []
  rw [if_neg (by omega)]
  unfold FLAG_WITH_EVENT
  rw [if_neg (by omega)]
  unfold parse_frame_after_event
  rw [hb1, if_pos (by decide : (15 : Nat) = MSG_TYPE_ERROR), if_neg (by omega)]
  unfold sliceFrom
  rw [if_pos (by omega)]

lemma parse_server_payload_spec (d : List Nat) (b0 b1 b2 ps : Nat)
    (h12 : 12 ≤ d.length)
    (h0 : readU8 d 0 = some b0) (h1 : readU8 d 1 = some b1) (h2 : readU8 d 2 = some b2)
    (hhs : b0 % 16 * 4 + 8 ≤ d.length)
    (hcomp : b2 % 16 = 0)
    (hser : b2 / 16 = 1 ∨ b2 / 16 = 0)
    (hps : readBe32 d (b0 % 16 * 4 + 4) = some ps)
    (hpl : b0 % 16 * 4 + 8 + ps ≤ d.length) :
    parse_server_payload d =
      if b1 / 16 = 15 then
        some (Except.error (SttErr.serverError ((d.drop (b0 % 16 * 4 + 8)).take ps)))
      else some (Except.ok (some ((d.drop (b0 % 16 * 4 + 8)).take ps))) := by
  unfold parse_server_payload
  rw [if_neg (by omega), h0]
  simp only []
  rw [if_neg (by omega), h1, h2]
  simp only []
  rw [if_neg (by omega), if_neg (by omega), if_neg (by omega), hps]
  simp only []
  rw [if_neg (by omega)]
  unfold sliceRange
  rw [if_pos (by omega)]
  have hts : b0 % 16 * 4 + 8 + ps - (b0 % 16 * 4 + 8) = ps := by omega
  rw [hts]

lemma parse_server_payload_compression (d : List Nat) (b0 b2 : Nat)
    (h12 : 12 ≤ d.length)
    (h0 : readU8 d 0 = some b0) (h2 : readU8 d 2 = some b2)
    (hhs : b0 % 16 * 4 + 8 ≤ d.length)
    (hcomp : b2 % 16 ≠ 0) :
    parse_server_payload d = some (Except.error SttErr.unsupportedCompression) := by
  have h1 : ∃ v1, readU8 d 1 = some v1 := by
    unfold readU8
    cases hc : d.get? 1 with
    | none => rw [List.get?_eq_none] at hc; omega
    | some v => exact ⟨v, rfl⟩
  obtain ⟨v1, h1⟩ := h1
  unfold parse_server_payload
  rw [if_neg (by omega), h0]
  simp only []
  rw [if_neg (by omega), h1, h2]
  simp only []
  rw [if_pos hcomp]

/-! ### Claim C2 -/

/-- C2 counterexample: on an error frame the returned payload is not all bytes
after the event field; the decoder skips four further bytes (the error code),
so the bytes after the event field (drop 8 of the buffer) differ from the
returned payload. -/
theorem C2_counterexample :
    parse_frame [0x11, 0xF4, 0x10, 0x00, 0, 0, 0, 0, 0, 0, 0, 0, 0xAA] =
      some (Except.ok ⟨15, 4, 1, some 0, [0xAA]⟩) ∧
    List.drop 8 [0x11, 0xF4, 0x10, 0x00, 0, 0, 0, 0, 0, 0, 0, 0, 0xAA] ≠
      [(0xAA : Nat)] := by decide

/-- C2 amended: for an error-type session frame, parse_frame returns
immediately with a payload equal to all bytes after the 4-byte error code that
follows the (optional) event field, not all bytes after the event field; shown
for the eventful and the event-less layouts. -/
theorem C2_error_payload_starts_after_code :
    (∀ (ev code : Nat) (rest : List Nat), ev < 2 ^ 32 → code < 2 ^ 32 →
      parse_frame ([0x11, 0xF4, 0x10, 0x00] ++ be32_bytes ev ++ be32_bytes code ++ rest) =
        some (Except.ok ⟨15, 4, 1, some (i32OfBe ev), rest⟩)) ∧
    (∀ (code : Nat) (rest : List Nat), code < 2 ^ 32 →
      parse_frame ([0x11, 0xF0, 0x10, 0x00] ++ be32_bytes code ++ rest) =
        some (Except.ok ⟨15, 0, 1, none, rest⟩)) := by
  constructor
  · intro ev code rest hev hcode
    have hassoc : [(0x11 : Nat), 0xF4, 0x10, 0x00] ++ be32_bytes ev ++ be32_bytes code ++ rest =
        [0x11, 0xF4, 0x10, 0x00] ++ (be32_bytes ev ++ (be32_bytes code ++ rest)) := by
      simp [List.append_assoc]
    rw [hassoc]
    set d := [(0x11 : Nat), 0xF4, 0x10, 0x00] ++ (be32_bytes ev ++ (be32_bytes code ++ rest)) with hd
    have hlen : d.length = 12 + rest.length := by
      simp [hd, be32_bytes]
      omega
    have h0 : readU8 d 0 = some 0x11 := by simp [hd, readU8]
    have h1 : readU8 d 1 = some 0xF4 := by simp [hd, readU8]
    have h2 : readU8 d 2 = some 0x10 := by simp [hd, readU8]
    have hev4 : readBe32 d 4 = some ev := by
      have := readBe32_append [(0x11 : Nat), 0xF4, 0x10, 0x00] (be32_bytes code ++ rest) ev hev
      simpa [hd] using this
    have hdrop12 : d.drop 12 = rest := by
      have hre : d = ([0x11, 0xF4, 0x10, 0x00] ++ be32_bytes ev ++ be32_bytes code) ++ rest := by
        simp [hd, List.append_assoc]
      rw [hre, drop_length_append _ _ 12 (by simp [be32_bytes])]
    rw [parse_frame_error_eventful d 0x11 0xF4 0x10 ev (by omega) h0 h1 h2 (by decide)
      (by decide) hev4 (by omega)]
    norm_num
    rw [hdrop12]
  · intro code rest hcode
    have hassoc : [(0x11 : Nat), 0xF0, 0x10, 0x00] ++ be32_bytes code ++ rest =
        [0x11, 0xF0, 0x10, 0x00] ++ (be32_bytes code ++ rest) := by
      simp [List.append_assoc]
    rw [hassoc]
    set d := [(0x11 : Nat), 0xF0, 0x10, 0x00] ++ (be32_bytes code ++ rest) with hd
    have hlen : d.length = 8 + rest.length := by
      simp [hd, be32_bytes]
      omega
    have h0 : readU8 d 0 = some 0x11 := by simp [hd, readU8]
    have h1 : readU8 d 1 = some 0xF0 := by simp [hd, readU8]
    have h2 : readU8 d 2 = some 0x10 := by simp [hd, readU8]
    have hdrop8 : d.drop 8 = rest := by
      have hre : d = ([0x11, 0xF0, 0x10, 0x00] ++ be32_bytes code) ++ rest := by
        simp [hd, List.append_assoc]
      rw [hre, drop_length_append _ _ 8 (by simp [be32_bytes])]
    rw [parse_frame_error_eventless d 0x11 0xF0 0x10 (by omega) h0 h1 h2 (by decide)
      (by decide) (by omega)]
    norm_num
    rw [hdrop8]

/-- C2 witness: the amended theorem applied to a concrete eventful error frame
with one payload byte after the error code. -/
theorem C2_witness :
    parse_frame ([0x11, 0xF4, 0x10, 0x00] ++ be32_bytes 0 ++ be32_bytes 0 ++ [0xAA]) =
      some (Except.ok ⟨15, 4, 1, some (i32OfBe 0), [0xAA]⟩) :=
  C2_error_payload_starts_after_code.1 0 0 [0xAA] (by decide) (by decide)

/-! ### Claim C3 -/

/-- C3 counterexample: a well-formed session frame whose compression nibble
(low nibble of byte 2, here 1) is non-zero is parsed successfully by
parse_frame; the session decoder never examines that nibble. -/
theorem C3_counterexample :
    parse_frame [0x11, 0x14, 0x11, 0x00, 0, 0, 0, 1] =
      some (Except.ok ⟨1, 4, 1, some 1, []⟩) ∧ (0x11 : Nat) % 16 ≠ 0 := by decide

/-- C3 amended: a non-zero compression nibble is a fatal decode error in the
simple decoder parse_server_payload (whenever the two initial length checks
pass), but the session decoder parse_frame ignores the compression nibble
entirely: with any byte 2 value, hence any compression nibble, an otherwise
well-formed eventful frame parses successfully. -/
theorem C3_nonzero_compression :
    (∀ (d : List Nat) (b0 b2 : Nat), 12 ≤ d.length →
      readU8 d 0 = some b0 → readU8 d 2 = some b2 →
      b0 % 16 * 4 + 8 ≤ d.length → b2 % 16 ≠ 0 →
      parse_server_payload d = some (Except.error SttErr.unsupportedCompression)) ∧
    (∀ (b2 ev : Nat), b2 < 256 → ev < 2 ^ 32 →
      parse_frame ([0x11, 0x14, b2, 0x00] ++ be32_bytes ev) =
        some (Except.ok ⟨1, 4, b2 / 16, some (i32OfBe ev), []⟩)) := by
  constructor
  · intro d b0 b2 h12 h0 h2 hhs hcomp
    exact parse_server_payload_compression d b0 b2 h12 h0 h2 hhs hcomp
  · intro b2 ev hb2 hev
    have hassoc : [(0x11 : Nat), 0x14, b2, 0x00] ++ be32_bytes ev =
        [0x11, 0x14, b2, 0x00] ++ (be32_bytes ev ++ []) := by simp
    rw [hassoc]
    set d := [(0x11 : Nat), 0x14, b2, 0x00] ++ (be32_bytes ev ++ []) with hd
    have hlen : d.length = 8 := by simp [hd, be32_bytes]
    have h0 : readU8 d 0 = some 0x11 := by simp [hd, readU8]
    have h1 : readU8 d 1 = some 0x14 := by simp [hd, readU8]
    have h2 : readU8 d 2 = some b2 := by simp [hd, readU8]
    have hev4 : readBe32 d 4 = some ev := by
      have := readBe32_append [(0x11 : Nat), 0x14, b2, 0x00] [] ev hev
      simpa [hd] using this
    rw [parse_frame_event_only d 0x11 0x14 b2 ev (by omega) h0 h1 h2 (by decide)
      (by decide) hev4 (by omega)]

/-- C3 witness: the amended theorem applied to a 12-byte simple-protocol frame
whose compression nibble is 1, and to a session frame whose byte 2 is 0x11
(serialization 1, compression 1). -/
theorem C3_witness :
    parse_server_payload [0x11, 0x10, 0x11, 0x00, 0, 0, 0, 0, 0, 0, 0, 0] =
      some (Except.error SttErr.unsupportedCompression) ∧
    parse_frame ([0x11, 0x14, 0x11, 0x00] ++ be32_bytes 1) =
      some (Except.ok ⟨1, 4, 0x11 / 16, some (i32OfBe 1), []⟩) :=
  ⟨C3_nonzero_compression.1 [0x11, 0x10, 0x11, 0x00, 0, 0, 0, 0, 0, 0, 0, 0] 0x11 0x11
      (by decide) (by decide) (by decide) (by decide) (by decide),
    C3_nonzero_compression.2 0x11 1 (by decide) (by decide)⟩

/-! ### Claim C4 -/

/-- C4 counterexample: in the simple decoder the serialization check precedes
the error-message-type check, so a frame whose message_type nibble is 0xF but
whose serialization nibble is 2 yields the unsupported-serialization error,
not an error result carrying the frame payload text. -/
theorem C4_counterexample :
    parse_server_payload [0x11, 0xF0, 0x20, 0x00, 0, 0, 0, 0, 0, 0, 0, 0] =
      some (Except.error SttErr.unsupportedSerialization) ∧
    (SttErr.unsupportedSerialization ≠ SttErr.serverError []) := by decide

/-- C4 amended: the error message type short-circuits to an error result
carrying the payload only after the compression and serialization checks pass
in the simple decoder (serialization nibble 0 or 1); the session decoder
parse_frame short-circuits on the error type regardless of byte 2 and returns
the frame whose payload the callers (here wait_for_event) surface as the
service error text. -/
theorem C4_error_type_short_circuit :
    (∀ (s seq : Nat) (p : List Nat), (s = 0 ∨ s = 1) → seq < 2 ^ 32 → p.length < 2 ^ 32 →
      parse_server_payload ([0x11, 0xF0, 16 * s, 0x00] ++ be32_bytes seq ++ be32_bytes p.length ++ p) =
        some (Except.error (SttErr.serverError p))) ∧
    (∀ (b2 ev code : Nat) (rest : List Nat), ev < 2 ^ 32 → code < 2 ^ 32 →
      parse_frame ([0x11, 0xF4, b2, 0x00] ++ be32_bytes ev ++ be32_bytes code ++ rest) =
        some (Except.ok ⟨15, 4, b2 / 16, some (i32OfBe ev), rest⟩)) ∧
    (∀ (b2 ev code : Nat) (rest : List Nat) (tail : List Msg) (target : Int),
      ev < 2 ^ 32 → code < 2 ^ 32 →
      wait_for_event
        (Msg.binary ([0x11, 0xF4, b2, 0x00] ++ be32_bytes ev ++ be32_bytes code ++ rest) :: tail)
        target = (Except.error (TtsErr.serviceError rest), tail)) := by
  have hb : ∀ (b2 ev code : Nat) (rest : List Nat), ev < 2 ^ 32 → code < 2 ^ 32 →
      parse_frame ([0x11, 0xF4, b2, 0x00] ++ be32_bytes ev ++ be32_bytes code ++ rest) =
        some (Except.ok ⟨15, 4, b2 / 16, some (i32OfBe ev), rest⟩) := by
    intro b2 ev code rest hev hcode
    have hassoc : [(0x11 : Nat), 0xF4, b2, 0x00] ++ be32_bytes ev ++ be32_bytes code ++ rest =
        [0x11, 0xF4, b2, 0x00] ++ (be32_bytes ev ++ (be32_bytes code ++ rest)) := by
      simp [List.append_assoc]
    rw [hassoc]
    set d := [(0x11 : Nat), 0xF4, b2, 0x00] ++ (be32_bytes ev ++ (be32_bytes code ++ rest)) with hd
    have hlen : d.length = 12 + rest.length := by
      simp [hd, be32_bytes]
      omega
    have h0 : readU8 d 0 = some 0x11 := by simp [hd, readU8]
    have h1 : readU8 d 1 = some 0xF4 := by simp [hd, readU8]
    have h2 : readU8 d 2 = some b2 := by simp [hd, readU8]
    have hev4 : readBe32 d 4 = some ev := by
      have := readBe32_append [(0x11 : Nat), 0xF4, b2, 0x00] (be32_bytes code ++ rest) ev hev
      simpa [hd] using this
    have hdrop12 : d.drop 12 = rest := by
      have hre : d = ([0x11, 0xF4, b2, 0x00] ++ be32_bytes ev ++ be32_bytes code) ++ rest := by
        simp [hd, List.append_assoc]
      rw [hre, drop_length_append _ _ 12 (by simp [be32_bytes])]
    rw [parse_frame_error_eventful d 0x11 0xF4 b2 ev (by omega) h0 h1 h2 (by decide)
      (by decide) hev4 (by omega)]
    norm_num
    rw [hdrop12]
  refine ⟨?_, hb, ?_⟩
  · intro s seq p hs hseq hp
    have hassoc : [(0x11 : Nat), 0xF0, 16 * s, 0x00] ++ be32_bytes seq ++ be32_bytes p.length ++ p =
        ([0x11, 0xF0, 16 * s, 0x00] ++ be32_bytes seq) ++ (be32_bytes p.length ++ p) := by
      simp [List.append_assoc]
    rw [hassoc]
    set d := ([(0x11 : Nat), 0xF0, 16 * s, 0x00] ++ be32_bytes seq) ++ (be32_bytes p.length ++ p) with hd
    have hlen : d.length = 12 + p.length := by
      simp [hd, be32_bytes]
      omega
    have h0 : readU8 d 0 = some 0x11 := by simp [hd, readU8, be32_bytes]
    have h1 : readU8 d 1 = some 0xF0 := by simp [hd, readU8, be32_bytes]
    have h2 : readU8 d 2 = some (16 * s) := by simp [hd, readU8, be32_bytes]
    have hps8 : readBe32 d 8 = some p.length := by
      have := readBe32_append ([(0x11 : Nat), 0xF0, 16 * s, 0x00] ++ be32_bytes seq) p p.length hp
      have hl8 : ([(0x11 : Nat), 0xF0, 16 * s, 0x00] ++ be32_bytes seq).length = 8 := by
        simp [be32_bytes]
      rw [hl8] at this
      exact this
    have hdrop12 : d.drop 12 = p := by
      have hre : d = (([0x11, 0xF0, 16 * s, 0x00] ++ be32_bytes seq) ++ be32_bytes p.length) ++ p := by
        simp [hd, List.append_assoc]
      rw [hre, drop_length_append _ _ 12 (by simp [be32_bytes])]
    rw [parse_server_payload_spec d 0x11 0xF0 (16 * s) p.length (by omega) h0 h1 h2 (by omega)
      (by omega) (by omega) hps8 (by omega)]
    rw [if_pos (by decide)]
    rw [hdrop12, List.take_length]
  · intro b2 ev code rest tail target hev hcode
    have hpf := hb b2 ev code rest hev hcode
    unfold wait_for_event
    simp only [parse_frame_run, hpf, Option.getD_some]
    rw [if_pos (by decide : (15 : Nat) = MSG_TYPE_ERROR)]

/-- C4 witness: the amended theorem applied to a concrete JSON-serialization
error frame in the simple protocol, a concrete error frame with serialization
nibble 2 in the session protocol, and the wait_for_event conversion on it. -/
theorem C4_witness :
    parse_server_payload ([0x11, 0xF0, 16 * 1, 0x00] ++ be32_bytes 0 ++ be32_bytes 1 ++ [0x58]) =
      some (Except.error (SttErr.serverError [0x58])) ∧
    parse_frame ([0x11, 0xF4, 0x20, 0x00] ++ be32_bytes 0 ++ be32_bytes 0 ++ [0x58]) =
      some (Except.ok ⟨15, 4, 0x20 / 16, some (i32OfBe 0), [0x58]⟩) ∧
    wait_for_event
        (Msg.binary ([0x11, 0xF4, 0x20, 0x00] ++ be32_bytes 0 ++ be32_bytes 0 ++ [0x58]) :: [])
        EVENT_CONNECTION_STARTED = (Except.error (TtsErr.serviceError [0x58]), []) :=
  ⟨C4_error_type_short_circuit.1 1 0 [0x58] (Or.inr rfl) (by decide) (by decide),
    C4_error_type_short_circuit.2.1 0x20 0 0 [0x58] (by decide) (by decide),
    C4_error_type_short_circuit.2.2 0x20 0 0 [0x58] [] EVENT_CONNECTION_STARTED
      (by decide) (by decide)⟩

/-! ### Claim C5 -/

/-- C5 counterexample: parse_server_payload does not round-trip
build_audio_only_request. An empty audio buffer encodes to 8 bytes, below the
12-byte decoder minimum, so decoding yields the incomplete outcome instead of
success; and for a 5-byte audio buffer the decoder, which expects a 4-byte
sequence field before the payload length, misreads the first audio bytes as
the length and recovers a 1-byte payload instead of the declared 5 bytes. -/
theorem C5_counterexample :
    parse_server_payload (build_audio_only_request [] true) = some (Except.ok none) ∧
    parse_server_payload (build_audio_only_request [0, 0, 0, 1, 0xAB] false) =
      some (Except.ok (some [0xAB])) ∧
    ([(0xAB : Nat)].length ≠ ([(0 : Nat), 0, 0, 1, 0xAB]).length) := by decide

/-- C5 amended: the round-trip holds once the 4-byte sequence field the
response decoder expects is inserted between the encoded header and the
payload-length word: for every audio byte list and is-final flag, decoding the
so-adjusted encoding succeeds and recovers the payload exactly (hence its
declared length); the result does not depend on the flag, which the decoder
never returns. -/
theorem C5_roundtrip_with_sequence_field :
    ∀ (f : Bool) (seq : Nat) (a : List Nat), seq < 2 ^ 32 → a.length < 2 ^ 32 →
      parse_server_payload
        ([0x11, Nat.lor 0x20 (if f then 0x02 else 0x00), 0x00, 0x00] ++
          be32_bytes seq ++ be32_bytes a.length ++ a) =
        some (Except.ok (some a)) := by
  intro f seq a hseq ha
  have key : ∀ (b1 : Nat), b1 / 16 ≠ 15 →
      parse_server_payload
        ([0x11, b1, 0x00, 0x00] ++ be32_bytes seq ++ be32_bytes a.length ++ a) =
        some (Except.ok (some a)) := by
    intro b1 hb1
    have hassoc : [(0x11 : Nat), b1, 0x00, 0x00] ++ be32_bytes seq ++ be32_bytes a.length ++ a =
        ([0x11, b1, 0x00, 0x00] ++ be32_bytes seq) ++ (be32_bytes a.length ++ a) := by
      simp [List.append_assoc]
    rw [hassoc]
    set d := ([(0x11 : Nat), b1, 0x00, 0x00] ++ be32_bytes seq) ++ (be32_bytes a.length ++ a) with hd
    have hlen : d.length = 12 + a.length := by
      simp [hd, be32_bytes]
      omega
    have h0 : readU8 d 0 = some 0x11 := by simp [hd, readU8, be32_bytes]
    have h1 : readU8 d 1 = some b1 := by simp [hd, readU8, be32_bytes]
    have h2 : readU8 d 2 = some 0x00 := by simp [hd, readU8, be32_bytes]
    have hps8 : readBe32 d 8 = some a.length := by
      have := readBe32_append ([(0x11 : Nat), b1, 0x00, 0x00] ++ be32_bytes seq) a a.length ha
      have hl8 : ([(0x11 : Nat), b1, 0x00, 0x00] ++ be32_bytes seq).length = 8 := by
        simp [be32_bytes]
      rw [hl8] at this
      exact this
    have hdrop12 : d.drop 12 = a := by
      have hre : d = (([0x11, b1, 0x00, 0x00] ++ be32_bytes seq) ++ be32_bytes a.length) ++ a := by
        simp [hd, List.append_assoc]
      rw [hre, drop_length_append _ _ 12 (by simp [be32_bytes])]
    rw [parse_server_payload_spec d 0x11 b1 0x00 a.length (by omega) h0 h1 h2 (by omega)
      (by omega) (by omega) hps8 (by omega)]
    rw [if_neg hb1]
    rw [hdrop12, List.take_length]
  cases f with
  | true => exact key (Nat.lor 0x20 0x02) (by decide)
  | false => exact key (Nat.lor 0x20 0x00) (by decide)

/-- C5 witness: the amended theorem applied to a one-byte audio payload with
the is-final flag set and sequence zero. -/
theorem C5_witness :
    parse_server_payload
        ([0x11, Nat.lor 0x20 (if true then 0x02 else 0x00), 0x00, 0x00] ++
          be32_bytes 0 ++ be32_bytes [(0x07 : Nat)].length ++ [0x07]) =
      some (Except.ok (some [0x07])) :=
  C5_roundtrip_with_sequence_field true 0 [0x07] (by decide) (by decide)

/-! ### Claim C6 -/

/-- C6 counterexample: the scenario-A buffer [0x11,0x10,0x10,0x00] ++ be32(2)
++ the bytes of the two-character brace string is only 10 bytes, under the
12-byte minimum, so parse_server_payload returns the incomplete outcome
Ok(None), not the claimed success. -/
theorem C6_counterexample :
    parse_server_payload ([0x11, 0x10, 0x10, 0x00] ++ be32_bytes 2 ++ [0x7B, 0x7D]) =
      some (Except.ok none) ∧
    (Except.ok (none : Option (List Nat)) ≠
      (Except.ok (some [0x7B, 0x7D]) : Except SttErr (Option (List Nat)))) := by decide

/-- C6 amended: the scenario-A buffer decodes to the incomplete outcome, and
the corresponding 14-byte buffer with the 4-byte sequence field the decoder
expects inserted before the payload length decodes to success with payload
bytes 0x7B 0x7D (the UTF-8 bytes of the two-brace string). -/
theorem C6_scenario_a :
    parse_server_payload ([0x11, 0x10, 0x10, 0x00] ++ be32_bytes 2 ++ [0x7B, 0x7D]) =
      some (Except.ok none) ∧
    parse_server_payload
        ([0x11, 0x10, 0x10, 0x00] ++ be32_bytes 0 ++ be32_bytes 2 ++ [0x7B, 0x7D]) =
      some (Except.ok (some [0x7B, 0x7D])) := by decide

/-! ### Claim C7: totality of the decoders -/

lemma get?_exists (d : List Nat) (i : Nat) (h : i < d.length) :
    ∃ b, d.get? i = some b := by
  cases hc : d.get? i with
  | none => rw [List.get?_eq_none] at hc; omega
  | some b => exact ⟨b, rfl⟩

lemma readBe32_isSome (d : List Nat) (i : Nat) (h : i + 4 ≤ d.length) :
    ∃ n, readBe32 d i = some n := by
  obtain ⟨a, ha⟩ := get?_exists d i (by omega)
  obtain ⟨b, hb⟩ := get?_exists d (i + 1) (by omega)
  obtain ⟨c, hc⟩ := get?_exists d (i + 2) (by omega)
  obtain ⟨e, he⟩ := get?_exists d (i + 3) (by omega)
  unfold readBe32
  rw [ha, hb, hc, he]
  exact ⟨be32 a b c e, rfl⟩

lemma parse_frame_payload_field_isSome (d : List Nat) (offset : Nat) :
    (parse_frame_payload_field d offset).isSome := by
  unfold parse_frame_payload_field
  by_cases hle : offset + 4 ≤ d.length
  · rw [if_pos hle]
    obtain ⟨n, hn⟩ := readBe32_isSome d offset hle
    rw [hn]
    simp only []
    by_cases hfit : offset + 4 + n ≤ d.length
    · rw [if_pos hfit]
      unfold sliceRange
      rw [if_pos (by omega)]
      rfl
    · rw [if_neg hfit]
      by_cases hlt : offset + 4 < d.length
      · rw [if_pos hlt]
        unfold sliceFrom
        rw [if_pos (by omega)]
        rfl
      · rw [if_neg hlt]
        rfl
  · rw [if_neg hle]
    rfl

lemma parse_frame_id_field_isSome (d : List Nat) (offset : Nat) :
    (parse_frame_id_field d offset).isSome := by
  unfold parse_frame_id_field
  by_cases hle : offset + 4 ≤ d.length
  · rw [if_pos hle]
    obtain ⟨n, hn⟩ := readBe32_isSome d offset hle
    rw [hn]
    simp only []
    by_cases hpos : n > 0
    · rw [if_pos hpos]
      by_cases hover : offset + 4 + n > d.length
      · rw [if_pos hover]
        rfl
      · rw [if_neg hover]
        rfl
    · rw [if_neg hpos]
      rfl
  · rw [if_neg hle]
    rfl

lemma parse_frame_after_event_isSome (d : List Nat)
    (message_type flags serialization : Nat) (event : Option Int) (offset : Nat) :
    (parse_frame_after_event d message_type flags serialization event offset).isSome := by
  unfold parse_frame_after_event
  by_cases herr : message_type = MSG_TYPE_ERROR
  · rw [if_pos herr]
    by_cases hlen : offset + 4 > d.length
    · rw [if_pos hlen]
      rfl
    · rw [if_neg hlen]
      unfold sliceFrom
      rw [if_pos (by omega)]
      rfl
  · rw [if_neg herr]
    cases hid : parse_frame_id_field d offset with
    | none =>
      have := parse_frame_id_field_isSome d offset
      rw [hid] at this
      exact absurd this (by simp)
    | some r =>
      cases r with
      | error e => rfl
      | ok offset2 =>
        simp only []
        cases hpl : parse_frame_payload_field d offset2 with
        | none =>
          have := parse_frame_payload_field_isSome d offset2
          rw [hpl] at this
          exact absurd this (by simp)
        | some payload => rfl

lemma parse_frame_isSome (d : List Nat) : (parse_frame d).isSome := by
  unfold parse_frame
  by_cases hshort : d.length < 4
  · rw [if_pos hshort]
    rfl
  · rw [if_neg hshort]
    obtain ⟨b0, h0⟩ := get?_exists d 0 (by omega)
    obtain ⟨b1, h1⟩ := get?_exists d 1 (by omega)
    obtain ⟨b2, h2⟩ := get?_exists d 2 (by omega)
    unfold readU8
    rw [h0, h1, h2]
    simp only []
    by_cases hhs : b0 % 16 * 4 > d.length
    · rw [if_pos hhs]
      rfl
    · rw [if_neg hhs]
      by_cases hflag : Nat.land (b1 % 16) FLAG_WITH_EVENT ≠ 0
      · rw [if_pos hflag]
        by_cases hev : b0 % 16 * 4 + 4 > d.length
        · rw [if_pos hev]
          rfl
        · rw [if_neg hev]
          obtain ⟨n, hn⟩ := readBe32_isSome d (b0 % 16 * 4) (by omega)
          rw [hn]
          exact parse_frame_after_event_isSome d _ _ _ _ _
      · rw [if_neg hflag]
        exact parse_frame_after_event_isSome d _ _ _ _ _

lemma parse_server_payload_isSome (d : List Nat) :
    (parse_server_payload d).isSome := by
  unfold parse_server_payload
  by_cases hshort : d.length < 12
  · rw [if_pos hshort]
    rfl
  · rw [if_neg hshort]
    obtain ⟨b0, h0⟩ := get?_exists d 0 (by omega)
    obtain ⟨b1, h1⟩ := get?_exists d 1 (by omega)
    obtain ⟨b2, h2⟩ := get?_exists d 2 (by omega)
    unfold readU8
    rw [h0, h1, h2]
    simp only []
    by_cases hhs : d.length < b0 % 16 * 4 + 8
    · rw [if_pos hhs]
      rfl
    · rw [if_neg hhs]
      by_cases hcomp : b2 % 16 ≠ 0
      · rw [if_pos hcomp]
        rfl
      · rw [if_neg hcomp]
        by_cases hser : b2 / 16 ≠ 0x01 ∧ b2 / 16 ≠ 0x00
        · rw [if_pos hser]
          rfl
        · rw [if_neg hser]
          by_cases hps : d.length < b0 % 16 * 4 + 4 + 4
          · rw [if_pos hps]
            rfl
          · rw [if_neg hps]
            obtain ⟨ps, hn⟩ := readBe32_isSome d (b0 % 16 * 4 + 4) (by omega)
            rw [hn]
            simp only []
            by_cases hpl : d.length < b0 % 16 * 4 + 8 + ps
            · rw [if_pos hpl]
              rfl
            · rw [if_neg hpl]
              unfold sliceRange
              rw [if_pos (by omega)]
              simp only []
              by_cases hmt : b1 / 16 = 0b1111
              · rw [if_pos hmt]
                rfl
              · rw [if_neg hmt]
                rfl

/-- C7: both decoders are total on arbitrary byte buffers: every indexed read
and slice stays in bounds, so the panic branches (the none results of the
Option layer) are unreachable and a result value is always returned. -/
theorem C7_no_panic (d : List Nat) :
    (parse_frame d).isSome ∧ (parse_server_payload d).isSome :=
  ⟨parse_frame_isSome d, parse_server_payload_isSome d⟩

/-! ### Claims C8 and C10: the text chunker -/


lemma dropWhile_eq_self_of_head? (p : Char → Bool) (l : List Char) (c : Char)
    (hh : l.head? = some c) (hc : p c = false) : l.dropWhile p = l := by
  cases l with
  | nil => rfl
  | cons a t =>
    simp only [List.head?_cons, Option.some.injEq] at hh
    rw [List.dropWhile_cons, hh, hc]
    simp

lemma dropWhile_ne_nil_of_mem (p : Char → Bool) (l : List Char) (c : Char)
    (hm : c ∈ l) (hc : p c = false) : l.dropWhile p ≠ [] := by
  intro h
  rw [List.dropWhile_eq_nil_iff] at h
  have hcc := h c hm
  rw [hc] at hcc
  exact Bool.noConfusion hcc

lemma getLast?_dropWhile (p : Char → Bool) (l : List Char)
    (h : l.dropWhile p ≠ []) : (l.dropWhile p).getLast? = l.getLast? := by
  obtain ⟨t, ht⟩ := List.dropWhile_suffix (l := l) p
  conv_rhs => rw [← ht]
  rw [List.getLast?_append_of_ne_nil _ h]

lemma dropWhile_length_le (p : Char → Bool) (l : List Char) :
    (l.dropWhile p).length ≤ l.length :=
  (List.dropWhile_suffix p).length_le

lemma trimChars_length_le (s : List Char) : (trimChars s).length ≤ s.length := by
  unfold trimChars trimEnd
  calc (List.dropWhile isRustWhitespace (List.dropWhile isRustWhitespace s.reverse).reverse).length
      ≤ (List.dropWhile isRustWhitespace s.reverse).reverse.length := dropWhile_length_le _ _
    _ = (List.dropWhile isRustWhitespace s.reverse).length := List.length_reverse _
    _ ≤ s.reverse.length := dropWhile_length_le _ _
    _ = s.length := List.length_reverse _

lemma trimChars_head?_not_ws (s : List Char) (h : trimChars s ≠ []) :
    ∃ c, (trimChars s).head? = some c ∧ isRustWhitespace c = false := by
  unfold trimChars at h ⊢
  exact ⟨_, List.head?_eq_head h, List.head_dropWhile_not isRustWhitespace (trimEnd s) h⟩

lemma trimChars_getLast?_not_ws (s : List Char) (h : trimChars s ≠ []) :
    ∃ c, (trimChars s).getLast? = some c ∧ isRustWhitespace c = false := by
  have hA : List.dropWhile isRustWhitespace s.reverse ≠ [] := by
    intro hnil
    apply h
    unfold trimChars trimEnd
    rw [hnil]
    rfl
  have hlast : (trimChars s).getLast? = (List.dropWhile isRustWhitespace s.reverse).head? := by
    unfold trimChars trimEnd at h ⊢
    rw [getLast?_dropWhile _ _ h, List.getLast?_reverse]
  refine ⟨_, ?_, List.head_dropWhile_not isRustWhitespace s.reverse hA⟩
  rw [hlast]
  exact List.head?_eq_head hA

lemma trimChars_idem (s : List Char) : trimChars (trimChars s) = trimChars s := by
  by_cases h : trimChars s = []
  · rw [h]
    rfl
  · obtain ⟨c, hc, hcw⟩ := trimChars_head?_not_ws s h
    obtain ⟨e, he, hew⟩ := trimChars_getLast?_not_ws s h
    have h1 : trimEnd (trimChars s) = trimChars s := by
      unfold trimEnd
      rw [dropWhile_eq_self_of_head? _ _ e (by rw [List.head?_reverse]; exact he) hew]
      exact List.reverse_reverse _
    calc trimChars (trimChars s)
        = (trimEnd (trimChars s)).dropWhile isRustWhitespace := rfl
      _ = (trimChars s).dropWhile isRustWhitespace := by rw [h1]
      _ = trimChars s := dropWhile_eq_self_of_head? _ _ c hc hcw

lemma trimChars_cons_ne_nil (c : Char) (l : List Char)
    (hc : isRustWhitespace c = false) : trimChars (c :: l) ≠ [] := by
  have hA : List.dropWhile isRustWhitespace (c :: l).reverse ≠ [] :=
    dropWhile_ne_nil_of_mem _ _ c (by simp) hc
  have hlast : (List.dropWhile isRustWhitespace (c :: l).reverse).getLast? = some c := by
    rw [getLast?_dropWhile _ _ hA, List.getLast?_reverse]
    rfl
  have hhead : (trimEnd (c :: l)).head? = some c := by
    unfold trimEnd
    rw [List.head?_reverse]
    exact hlast
  unfold trimChars
  rw [dropWhile_eq_self_of_head? _ _ c hhead hc]
  intro hnil
  rw [hnil] at hhead
  exact Option.noConfusion hhead


lemma splitStep_eq (maxLen minLen : Nat) (chunks : List (List Char))
    (cur : List Char) (n : Nat) (ch : Char) :
    splitStep maxLen minLen (chunks, cur, n) ch =
      if n + 1 ≥ maxLen ∨ (is_boundary_char ch ∧ n + 1 ≥ minLen) then
        (if trimChars (cur ++ [ch]) ≠ [] then chunks ++ [trimChars (cur ++ [ch])]
         else chunks, [], 0)
      else (chunks, cur ++ [ch], n + 1) := rfl

lemma fold_chunks_extend (maxLen minLen : Nat) :
    ∀ (l : List Char) (st : List (List Char) × List Char × Nat),
      ∃ t, (l.foldl (splitStep maxLen minLen) st).1 = st.1 ++ t := by
  intro l
  induction l with
  | nil =>
    intro st
    exact ⟨[], by simp⟩
  | cons ch rest ih =>
    intro st
    rw [List.foldl_cons]
    obtain ⟨chunks, cur, n⟩ := st
    rw [splitStep_eq]
    by_cases hs : n + 1 ≥ maxLen ∨ (is_boundary_char ch ∧ n + 1 ≥ minLen)
    · rw [if_pos hs]
      by_cases hne : trimChars (cur ++ [ch]) ≠ []
      · rw [if_pos hne]
        obtain ⟨t, ht⟩ := ih (chunks ++ [trimChars (cur ++ [ch])], [], 0)
        exact ⟨[trimChars (cur ++ [ch])] ++ t, by rw [ht]; simp⟩
      · rw [if_neg hne]
        exact ih (chunks, [], 0)
    · rw [if_neg hs]
      exact ih (chunks, cur ++ [ch], n + 1)

lemma scan_chunks_or_rest (maxLen minLen : Nat) :
    ∀ (l cur : List Char) (chunks : List (List Char)),
      cur ++ l ≠ [] →
      isRustWhitespace ((cur ++ l).headD 'A') = false →
      (l.foldl (splitStep maxLen minLen) (chunks, cur, cur.length)).1 ≠ [] ∨
      trimChars (l.foldl (splitStep maxLen minLen) (chunks, cur, cur.length)).2.1 ≠ [] := by
  intro l
  induction l with
  | nil =>
    intro cur chunks hne hhead
    right
    rw [List.foldl_nil]
    rw [List.append_nil] at hne hhead
    cases cur with
    | nil => exact absurd rfl hne
    | cons a t =>
      exact trimChars_cons_ne_nil a t (by simpa using hhead)
  | cons ch rest ih =>
    intro cur chunks hne hhead
    rw [List.foldl_cons, splitStep_eq]
    by_cases hs : cur.length + 1 ≥ maxLen ∨ (is_boundary_char ch ∧ cur.length + 1 ≥ minLen)
    · rw [if_pos hs]
      have hchunk : trimChars (cur ++ [ch]) ≠ [] := by
        cases cur with
        | nil =>
          exact trimChars_cons_ne_nil ch [] (by simpa using hhead)
        | cons a t =>
          have hco : (a :: t) ++ [ch] = a :: (t ++ [ch]) := rfl
          rw [hco]
          exact trimChars_cons_ne_nil a _ (by simpa using hhead)
      rw [if_pos hchunk]
      left
      obtain ⟨t, ht⟩ :=
        fold_chunks_extend maxLen minLen rest (chunks ++ [trimChars (cur ++ [ch])], [], 0)
      rw [ht]
      simp
    · rw [if_neg hs]
      have hassoc : (cur ++ [ch]) ++ rest = cur ++ (ch :: rest) := by simp
      have hlen : (cur ++ [ch]).length = cur.length + 1 := by simp
      have hres := ih (cur ++ [ch]) chunks (by rw [hassoc]; exact hne) (by rw [hassoc]; exact hhead)
      rw [hlen] at hres
      exact hres

lemma splitStep_fold_invariant (maxLen minLen : Nat) (hmax : 0 < maxLen) :
    ∀ (l : List Char) (chunks : List (List Char)) (cur : List Char) (n : Nat),
      (∀ c ∈ chunks, trimChars c = c ∧ c ≠ [] ∧ c.length ≤ maxLen) →
      cur.length = n → n < maxLen →
      (∀ c ∈ (l.foldl (splitStep maxLen minLen) (chunks, cur, n)).1,
          trimChars c = c ∧ c ≠ [] ∧ c.length ≤ maxLen) ∧
      (l.foldl (splitStep maxLen minLen) (chunks, cur, n)).2.1.length =
        (l.foldl (splitStep maxLen minLen) (chunks, cur, n)).2.2 ∧
      (l.foldl (splitStep maxLen minLen) (chunks, cur, n)).2.2 < maxLen := by
  intro l
  induction l with
  | nil =>
    intro chunks cur n hch hlen hlt
    exact ⟨hch, hlen, hlt⟩
  | cons ch rest ih =>
    intro chunks cur n hch hlen hlt
    rw [List.foldl_cons, splitStep_eq]
    by_cases hs : n + 1 ≥ maxLen ∨ (is_boundary_char ch ∧ n + 1 ≥ minLen)
    · rw [if_pos hs]
      by_cases hne : trimChars (cur ++ [ch]) ≠ []
      · rw [if_pos hne]
        apply ih
        · intro c hc
          rw [List.mem_append] at hc
          cases hc with
          | inl hcl => exact hch c hcl
          | inr hcr =>
            rw [List.mem_singleton] at hcr
            subst hcr
            refine ⟨trimChars_idem _, hne, ?_⟩
            calc (trimChars (cur ++ [ch])).length
                ≤ (cur ++ [ch]).length := trimChars_length_le _
              _ = n + 1 := by simp [hlen]
              _ ≤ maxLen := by omega
        · rfl
        · omega
      · rw [if_neg hne]
        exact ih chunks [] 0 hch rfl (by omega)
    · rw [if_neg hs]
      exact ih chunks (cur ++ [ch]) (n + 1) hch (by simp [hlen]) (by omega)


/-- C8: for every input text and length parameters max, min with
max ≥ min > 0 (the source instantiates 60 and 12), every chunk emitted by
split_tts_text_with is non-empty after whitespace trimming and has at most max
characters: the forced split at max keeps every accumulated run, and hence
every trimmed chunk, within max characters. -/
theorem C8_chunk_bounds :
    ∀ (maxLen minLen : Nat) (t : List Char), minLen ≤ maxLen → 0 < minLen →
      ∀ c ∈ split_tts_text_with maxLen minLen t,
        trimChars c ≠ [] ∧ c.length ≤ maxLen := by
  intro maxLen minLen t hmm hmin c hc
  have hmax : 0 < maxLen := lt_of_lt_of_le hmin hmm
  simp only [split_tts_text_with] at hc
  by_cases htr : trimChars t = []
  · rw [if_pos htr] at hc
    exact absurd hc (List.not_mem_nil c)
  · rw [if_neg htr] at hc
    obtain ⟨hch, hlen2, hlt2⟩ := splitStep_fold_invariant maxLen minLen hmax (trimChars t) [] [] 0
      (by intro x hx; exact absurd hx (List.not_mem_nil x)) rfl hmax
    obtain ⟨w, hwh, hww⟩ := trimChars_head?_not_ws t htr
    have hscan := scan_chunks_or_rest maxLen minLen (trimChars t) [] []
      (by simpa using htr)
      (by simp only [List.nil_append, List.headD_eq_head?, hwh]; exact hww)
    simp only [List.length_nil] at hscan
    set F := (trimChars t).foldl (splitStep maxLen minLen) ([], [], 0) with hF
    have hne : (if trimChars F.2.1 ≠ [] then F.1 ++ [trimChars F.2.1] else F.1) ≠ [] := by
      cases hscan with
      | inl h1 =>
        by_cases hrest : trimChars F.2.1 ≠ []
        · rw [if_pos hrest]
          simp
        · rw [if_neg hrest]
          exact h1
      | inr h2 =>
        rw [if_pos h2]
        simp
    rw [if_neg hne] at hc
    by_cases hrest : trimChars F.2.1 ≠ []
    · rw [if_pos hrest] at hc
      rw [List.mem_append] at hc
      cases hc with
      | inl hin =>
        obtain ⟨hidem, hnil, hlc⟩ := hch c hin
        exact ⟨by rw [hidem]; exact hnil, hlc⟩
      | inr hin =>
        rw [List.mem_singleton] at hin
        subst hin
        refine ⟨by rw [trimChars_idem]; exact hrest, ?_⟩
        calc (trimChars F.2.1).length ≤ F.2.1.length := trimChars_length_le _
          _ = F.2.2 := hlen2
          _ ≤ maxLen := by omega
    · rw [if_neg hrest] at hc
      obtain ⟨hidem, hnil, hlc⟩ := hch c hc
      exact ⟨by rw [hidem]; exact hnil, hlc⟩

/-- C10: split_tts_text returns the empty list exactly when the input trims to
empty; any input with non-empty trimmed form yields at least one chunk, the
final branch falling back to the whole trimmed input when the scan produced
none. -/
theorem C10_empty_iff (t : List Char) :
    split_tts_text t = [] ↔ trimChars t = [] := by
  unfold split_tts_text split_tts_text_with
  by_cases htr : trimChars t = []
  · rw [if_pos htr]
    simp [htr]
  · rw [if_neg htr]
    constructor
    · intro h
      set F := (trimChars t).foldl (splitStep TTS_CHUNK_MAX TTS_CHUNK_MIN) ([], [], 0) with hF
      by_cases hck : (if trimChars F.2.1 ≠ [] then F.1 ++ [trimChars F.2.1] else F.1) = []
      · rw [if_pos hck] at h
        exact absurd h (by simp)
      · rw [if_neg hck] at h
        exact absurd h hck
    · intro h
      exact absurd h htr


/-- C8 witness: the chunk-bounds theorem applied at the source constants 60/12
to a two-character input, whose single chunk is the input itself. -/
theorem C8_witness :
    trimChars ['h', 'i'] ≠ [] ∧ (['h', 'i'] : List Char).length ≤ 60 :=
  C8_chunk_bounds 60 12 ['h', 'i'] (by decide) (by decide) ['h', 'i'] (by decide)

/-! ### Claim C9: the closing handshake -/

/-- C9 counterexample: a mid-session failure right after the connection is
open (the first inbound frame is a protocol error frame, failing the await of
event 50) makes the driver return the error having sent only the
start-connection frame: the finish-connection frame (event 2) is never sent,
so the closing handshake is not attempted. -/
theorem C9_counterexample :
    tts_speak_stream_after_connect ['h', 'i']
        [Msg.binary [0x11, 0xF4, 0x10, 0x00, 0, 0, 0, 0, 0, 0, 0, 0]] =
      ⟨Except.error (TtsErr.serviceError []), [EVENT_START_CONNECTION]⟩ ∧
    EVENT_FINISH_CONNECTION ∉
      (tts_speak_stream_after_connect ['h', 'i']
        [Msg.binary [0x11, 0xF4, 0x10, 0x00, 0, 0, 0, 0, 0, 0, 0, 0]]).sent := by
  decide

/-- C9 amended: the closing handshake is attempted exactly on the normal path:
the finish-connection frame is sent if and only if the audio-collection loop
completed without error, in which case the result is Ok regardless of the
outcome of the discarded await of event 52 (its failure is never escalated);
every mid-session failure returns without attempting the closing handshake. -/
theorem C9_close_handshake_iff_normal_loop_exit (text : List Char) (inbound : List Msg) :
    (∃ total, (tts_speak_stream_after_connect text inbound).result = Except.ok total) ↔
      EVENT_FINISH_CONNECTION ∈ (tts_speak_stream_after_connect text inbound).sent := by
  simp only [tts_speak_stream_after_connect]
  cases h1 : (wait_for_event inbound EVENT_CONNECTION_STARTED).1 with
  | error e =>
    simp [EVENT_START_CONNECTION, EVENT_FINISH_CONNECTION]
  | ok u1 =>
    cases h2 : (wait_for_event (wait_for_event inbound EVENT_CONNECTION_STARTED).2
        EVENT_SESSION_STARTED).1 with
    | error e =>
      simp [EVENT_START_CONNECTION, EVENT_START_SESSION, EVENT_FINISH_CONNECTION]
    | ok u2 =>
      by_cases hchunks : split_tts_text text = []
      · rw [if_pos hchunks]
        simp [EVENT_START_CONNECTION, EVENT_START_SESSION, EVENT_FINISH_CONNECTION]
      · rw [if_neg hchunks]
        cases h3 : (tts_audio_loop (wait_for_event
            (wait_for_event inbound EVENT_CONNECTION_STARTED).2 EVENT_SESSION_STARTED).2 0).1 with
        | error e =>
          simp [EVENT_START_CONNECTION, EVENT_START_SESSION, EVENT_TASK_REQUEST,
            EVENT_FINISH_SESSION, EVENT_FINISH_CONNECTION]
        | ok total =>
          simp [EVENT_START_CONNECTION, EVENT_START_SESSION, EVENT_TASK_REQUEST,
            EVENT_FINISH_SESSION, EVENT_FINISH_CONNECTION]

end ReasonCode
